import Mathlib

/-! # Snake (main.cpp): a shallow embedding of the game state and its transitions

The development follows `src/main.cpp`.

* `int` values are modelled by `Int`.  No wrap-around is modelled: the lemmas
  `reachable_inv` and `reachable_bounds` below show that in every state
  reachable from `resetGame` the snake cells lie in the 20x15 grid, the frame
  counter lies in `[0, 15)` and the score is `10 * (length - 1)`, at most 2990,
  so none of the `int` operations of `update` can overflow there.
* `float` values (particle fields, `deltaTime`) are modelled by exact rationals.
* `std::rand()` is modelled by a stream `rnd : Nat → Nat`: `rnd i` is the value
  of the `i`-th call of `std::rand()` after the `std::srand` call at the start of
  `spawnFood`.  Every `std::rand()` call of the program happens after such a
  `std::srand` call inside the same `resetGame` / `update` call, so the stream
  is an argument of these operations.
* The `do ... while` loop of `spawnFood` is modelled with a fuel argument that
  bounds its number of iterations; `none` means that the loop did not finish
  within the fuel.  `update` also yields `none` where the source calls
  `snake.front()` on an empty vector (undefined behaviour).
* SDL resources are reduced to what the game logic reads: the two cached
  textures are modelled by a flag saying whether the pointer is non-null.
-/

namespace Snake

/-! ## Game constants (main.cpp, lines 11-21) -/

def GRID_SIZE : Int := 40
def SCREEN_WIDTH : Int := 800
def SCREEN_HEIGHT : Int := 600
def GRID_WIDTH : Int := SCREEN_WIDTH / GRID_SIZE
def GRID_HEIGHT : Int := SCREEN_HEIGHT / GRID_SIZE
def SNAKE_UPDATE_DELAY : Int := 15
def MAX_PARTICLES : Nat := 200

/-! ## Data model (main.cpp, lines 23-64) -/

/-- Directions: `enum Direction { UP, DOWN, LEFT, RIGHT }`. -/
inductive Direction where
  | UP | DOWN | LEFT | RIGHT
deriving DecidableEq, Repr

/-- Grid positions: `struct Point`, with component-wise `operator==`. -/
structure Point where
  x : Int
  y : Int
deriving DecidableEq, Repr

/-- Particles: `struct Particle`; the `float` fields are exact rationals here. -/
structure Particle where
  active : Bool
  x : ℚ
  y : ℚ
  vx : ℚ
  vy : ℚ
  lifetime : ℚ
  age : ℚ
deriving DecidableEq

/-- The game state: the data members of `class SnakeGame` that the game logic
reads or writes.  `scoreTexture` and `gameOverTexture` record whether the cached
texture pointer is non-null. -/
structure SnakeGame where
  running : Bool
  gameOver : Bool
  direction : Direction
  snake : List Point
  food : Point
  frameCounter : Int
  score : Int
  particles : List Particle
  scoreTexture : Bool
  gameOverTexture : Bool
  lastScore : Int
  gameOverStateChanged : Bool
deriving DecidableEq

/-- Key symbols that `handleInput` distinguishes; every other key is `other`. -/
inductive Keycode where
  | SDLK_UP | SDLK_DOWN | SDLK_LEFT | SDLK_RIGHT | SDLK_r
  | other (code : Nat)
deriving DecidableEq, Repr

/-- Events delivered by `SDL_PollEvent`, as far as `handleInput` looks at them. -/
inductive Event where
  | SDL_QUIT
  | SDL_KEYDOWN (sym : Keycode)
  | other
deriving DecidableEq, Repr

/-! ## Operations -/

/-- The loop of `spawnFood` (main.cpp, lines 91-96):
`do { food = { rand() % GRID_WIDTH, rand() % GRID_HEIGHT }; } while (find(snake, food) != end)`.
`fuel` bounds the number of iterations, `i` is the number of `rand()` values
already consumed; the result is the food cell and the number of values consumed. -/
def spawnFood (rnd : Nat → Nat) (snake : List Point) : Nat → Nat → Option (Point × Nat)
  | 0, _ => none
  | fuel + 1, i =>
    let food : Point := ⟨(rnd i : Int) % GRID_WIDTH, (rnd (i + 1) : Int) % GRID_HEIGHT⟩
    if food ∈ snake then spawnFood rnd snake fuel (i + 2) else some (food, i + 2)

/-- The function `addParticles(count, x, y)` (main.cpp, lines 98-112): `count`
iterations, each of which appends a particle when the pool holds fewer than
`MAX_PARTICLES`; `rand()` is called only in that case.  The result is the pool
and the number of `rand()` values consumed. -/
def addParticles (rnd : Nat → Nat) (x y : ℚ) : Nat → Nat → List Particle → List Particle × Nat
  | 0, i, particles => (particles, i)
  | count + 1, i, particles =>
    if particles.length < MAX_PARTICLES then
      let p : Particle :=
        { active := true
          x := x
          y := y
          vx := (((rnd i : Int) % 100 - 50 : Int) : ℚ) * 6
          vy := (((rnd (i + 1) : Int) % 100 - 50 : Int) : ℚ) * 6
          lifetime := 1
          age := 0 }
      addParticles rnd x y count (i + 2) (particles ++ [p])
    else
      addParticles rnd x y count i particles

/-- The function `resetGame` (main.cpp, lines 74-89). -/
def resetGame (rnd : Nat → Nat) (fuel : Nat) (g : SnakeGame) : Option SnakeGame :=
  let snake : List Point := [⟨GRID_WIDTH / 2, GRID_HEIGHT / 2⟩]
  match spawnFood rnd snake fuel 0 with
  | none => none
  | some (food, _) =>
    some { g with
      snake := snake
      food := food
      score := 0
      gameOver := false
      direction := Direction.RIGHT
      particles := []
      frameCounter := 0
      gameOverStateChanged := true
      lastScore := -1
      scoreTexture := false
      gameOverTexture := false }

/-- The body of the `while (SDL_PollEvent(&e))` loop of `handleInput`
(main.cpp, lines 155-166) for one event. -/
def handleEvent (rnd : Nat → Nat) (fuel : Nat) (g : SnakeGame) : Event → Option SnakeGame
  | Event.SDL_QUIT => some { g with running := false }
  | Event.SDL_KEYDOWN sym =>
    if g.gameOver && sym == Keycode.SDLK_r then resetGame rnd fuel g
    else if !g.gameOver then
      match sym with
      | Keycode.SDLK_UP =>
        if g.direction ≠ Direction.DOWN then some { g with direction := Direction.UP } else some g
      | Keycode.SDLK_DOWN =>
        if g.direction ≠ Direction.UP then some { g with direction := Direction.DOWN } else some g
      | Keycode.SDLK_LEFT =>
        if g.direction ≠ Direction.RIGHT then some { g with direction := Direction.LEFT } else some g
      | Keycode.SDLK_RIGHT =>
        if g.direction ≠ Direction.LEFT then some { g with direction := Direction.RIGHT } else some g
      | _ => some g
    else some g
  | Event.other => some g

/-- The function `handleInput` (main.cpp, lines 152-168): the events of the
queue are drained in order. -/
def handleInput (rnd : Nat → Nat) (fuel : Nat) : List Event → SnakeGame → Option SnakeGame
  | [], g => some g
  | e :: es, g =>
    match handleEvent rnd fuel g e with
    | none => none
    | some g1 => handleInput rnd fuel es g1

/-- The candidate head of `update` (main.cpp, lines 177-183): the current head
shifted one cell in the current direction. -/
def newHead (d : Direction) (head : Point) : Point :=
  match d with
  | Direction.UP => { head with y := head.y - 1 }
  | Direction.DOWN => { head with y := head.y + 1 }
  | Direction.LEFT => { head with x := head.x - 1 }
  | Direction.RIGHT => { head with x := head.x + 1 }

/-- The collision test of `update` (main.cpp, lines 185-186). -/
def collision (snake : List Point) (h : Point) : Bool :=
  decide (h.x < 0) || decide (h.y < 0) || decide (h.x ≥ GRID_WIDTH) ||
    decide (h.y ≥ GRID_HEIGHT) || decide (h ∈ snake)

/-- One iteration of the particle loop of `update` (main.cpp, lines 203-208). -/
def stepParticle (deltaTime : ℚ) (p : Particle) : Particle :=
  let age := p.age + deltaTime
  { p with
    x := p.x + p.vx * deltaTime
    y := p.y + p.vy * deltaTime
    age := age
    active := if age ≥ p.lifetime then false else p.active }

/-- The particle part of `update` (main.cpp, lines 202-212): every particle of
the pool is stepped, then the inactive ones are erased. -/
def updateParticles (deltaTime : ℚ) (particles : List Particle) : List Particle :=
  (particles.map (stepParticle deltaTime)).filter (fun p => p.active)

/-- The function `update(deltaTime)` (main.cpp, lines 170-213). -/
def update (rnd : Nat → Nat) (fuel : Nat) (deltaTime : ℚ) (g : SnakeGame) : Option SnakeGame :=
  if g.gameOver then some g
  else if g.frameCounter + 1 < SNAKE_UPDATE_DELAY then
    some { g with frameCounter := g.frameCounter + 1 }
  else
    match g.snake with
    | [] => none
    | head :: _ =>
      let h := newHead g.direction head
      if collision g.snake h then
        some { g with frameCounter := 0, gameOver := true, gameOverStateChanged := true }
      else if h = g.food then
        match spawnFood rnd (h :: g.snake) fuel 0 with
        | none => none
        | some (food, i) =>
          let added := addParticles rnd
            (((food.x * GRID_SIZE : Int) : ℚ) + (GRID_SIZE : ℚ) / 2)
            (((food.y * GRID_SIZE : Int) : ℚ) + (GRID_SIZE : ℚ) / 2) 20 i g.particles
          some { g with
            frameCounter := 0
            snake := h :: g.snake
            score := g.score + 10
            food := food
            particles := updateParticles deltaTime added.1 }
      else
        some { g with
          frameCounter := 0
          snake := (h :: g.snake).dropLast
          particles := updateParticles deltaTime g.particles }

/-- States reachable from `resetGame` by `handleInput` and `update` calls, each
with its own event list, `deltaTime`, random stream and loop bound. -/
inductive Reachable : SnakeGame → Prop where
  | reset (rnd : Nat → Nat) (fuel : Nat) (g0 g : SnakeGame) :
      resetGame rnd fuel g0 = some g → Reachable g
  | input (rnd : Nat → Nat) (fuel : Nat) (es : List Event) (g g1 : SnakeGame) :
      Reachable g → handleInput rnd fuel es g = some g1 → Reachable g1
  | update (rnd : Nat → Nat) (fuel : Nat) (deltaTime : ℚ) (g g1 : SnakeGame) :
      Reachable g → update rnd fuel deltaTime g = some g1 → Reachable g1

/-- The 180-degree opposite of a direction. -/
def opposite : Direction → Direction
  | Direction.UP => Direction.DOWN
  | Direction.DOWN => Direction.UP
  | Direction.LEFT => Direction.RIGHT
  | Direction.RIGHT => Direction.LEFT

/-- The key symbol of an arrow request. -/
def arrowKey : Direction → Keycode
  | Direction.UP => Keycode.SDLK_UP
  | Direction.DOWN => Keycode.SDLK_DOWN
  | Direction.LEFT => Keycode.SDLK_LEFT
  | Direction.RIGHT => Keycode.SDLK_RIGHT

/-- A cell of the 20x15 grid. -/
def inGrid (p : Point) : Prop :=
  0 ≤ p.x ∧ p.x < GRID_WIDTH ∧ 0 ≤ p.y ∧ p.y < GRID_HEIGHT

/-- Whether an arrow request `r` fails the guard of its `case` in `handleInput`
(main.cpp, lines 160-163), so that the assignment to `direction` is skipped. -/
def rejected (d r : Direction) : Bool :=
  match r with
  | Direction.UP => !decide (d ≠ Direction.DOWN)
  | Direction.DOWN => !decide (d ≠ Direction.UP)
  | Direction.LEFT => !decide (d ≠ Direction.RIGHT)
  | Direction.RIGHT => !decide (d ≠ Direction.LEFT)

/-- A cell outside the 20x15 grid. -/
def outside (p : Point) : Prop :=
  p.x < 0 ∨ 20 ≤ p.x ∨ p.y < 0 ∨ 15 ≤ p.y

instance (p : Point) : Decidable (outside p) := by
  unfold outside
  infer_instance

instance (p : Point) : Decidable (inGrid p) := by
  unfold inGrid
  infer_instance

/-- Whether the call `update` on `g` moves the snake onto the food cell: the
session is playing, the frame counter reaches the threshold, and the candidate
head passes the collision test and equals `food` (main.cpp, lines 171-193). -/
def eats (g : SnakeGame) : Bool :=
  !g.gameOver && decide (SNAKE_UPDATE_DELAY ≤ g.frameCounter + 1) &&
    match g.snake with
    | [] => false
    | head :: _ =>
      !collision g.snake (newHead g.direction head) && decide (newHead g.direction head = g.food)

/-- The cell of the `k`-th iteration of the `spawnFood` loop: it is built from
the `rand()` values number `2k` and `2k+1`. -/
def drawnCell (rnd : Nat → Nat) (k : Nat) : Point :=
  ⟨(rnd (2 * k) : Int) % GRID_WIDTH, (rnd (2 * k + 1) : Int) % GRID_HEIGHT⟩

/-- A sample session: playing, a one-cell snake at (10,7) heading right, food at (11,7). -/
def sample : SnakeGame :=
  { running := true
    gameOver := false
    direction := Direction.RIGHT
    snake := [⟨10, 7⟩]
    food := ⟨11, 7⟩
    frameCounter := 14
    score := 0
    particles := []
    scoreTexture := false
    gameOverTexture := false
    lastScore := -1
    gameOverStateChanged := true }

/-- The sample session with the snake at the right wall, at (19,3). -/
def sampleWall : SnakeGame := { sample with snake := [⟨19, 3⟩] }

/-- A session over, with a three-cell snake, a score of 20 and one particle. -/
def sampleOver : SnakeGame :=
  { sample with
    gameOver := true
    direction := Direction.UP
    snake := [⟨19, 3⟩, ⟨18, 3⟩, ⟨17, 3⟩]
    score := 20
    frameCounter := 0
    particles := [⟨true, 100, 100, 6, 6, 1, 0⟩] }

/-- A playing session heading right with a two-cell snake, the move due at the next `update`. -/
def sampleTwo : SnakeGame := { sample with snake := [⟨10, 7⟩, ⟨9, 7⟩], score := 10 }

/-- The session reached from `sample` by `update(1/60)` with the stream `rnd3`:
the snake has eaten the food at (11,7), the food is at (3,3), and the pool holds
the burst of 20 particles after their first step. -/
def sampleAte : SnakeGame :=
  { sample with
    frameCounter := 0
    snake := [⟨11, 7⟩, ⟨10, 7⟩]
    score := 10
    food := ⟨3, 3⟩
    particles := List.replicate 20 ⟨true, 1353 / 10, 1353 / 10, -282, -282, 1, 1 / 60⟩ }

/-- The session `sampleAte` after an Up key: the two-cell snake heads up. -/
def sampleTurned : SnakeGame := { sampleAte with direction := Direction.UP }

/-- The session `sampleTwo` heading left, back onto its own second cell. -/
def sampleBack : SnakeGame := { sampleTwo with direction := Direction.LEFT }

/-- A random stream that alternates 11 and 7: every cell drawn from it is (11,7). -/
def rnd117 : Nat → Nat := fun i => if i % 2 = 0 then 11 else 7

/-- A random stream whose every value is 3: the food cell drawn from it is (3,3). -/
def rnd3 : Nat → Nat := fun _ => 3

/-- The invariant of the reachable states: the snake is non-empty, has no
repeated cell and lies in the grid, the score is ten times the number of cells
gained, and the frame counter is below the snake-move threshold. -/
def Inv (g : SnakeGame) : Prop :=
  g.snake ≠ [] ∧ g.snake.Nodup ∧ (∀ c ∈ g.snake, inGrid c) ∧
    g.score = 10 * ((g.snake.length : Int) - 1) ∧
    0 ≤ g.frameCounter ∧ g.frameCounter < SNAKE_UPDATE_DELAY

/-! ## Auxiliary lemmas -/

lemma grid_width_eq : GRID_WIDTH = 20 := by decide

lemma grid_height_eq : GRID_HEIGHT = 15 := by decide

lemma zero_lt_delay : (0 : Int) < SNAKE_UPDATE_DELAY := by decide

lemma spawnFood_not_mem (rnd : Nat → Nat) (snake : List Point) (fuel i : Nat) (food : Point)
    (j : Nat) (h : spawnFood rnd snake fuel i = some (food, j)) : food ∉ snake := by
  induction fuel generalizing i with
  | zero => simp [spawnFood] at h
  | succ n ih =>
    simp only [spawnFood] at h
    split_ifs at h with hm
    · exact ih _ h
    · simp only [Option.some.injEq, Prod.mk.injEq] at h
      rw [← h.1]
      exact hm

lemma collision_false_iff (snake : List Point) (h : Point) :
    collision snake h = false ↔ inGrid h ∧ h ∉ snake := by
  simp only [collision, inGrid, Bool.or_eq_false_iff, decide_eq_false_iff_not, not_lt, ge_iff_le,
    not_le]
  tauto

lemma resetGame_inv (rnd : Nat → Nat) (fuel : Nat) (g0 g : SnakeGame)
    (h : resetGame rnd fuel g0 = some g) : Inv g := by
  unfold resetGame at h
  cases hs : spawnFood rnd [⟨GRID_WIDTH / 2, GRID_HEIGHT / 2⟩] fuel 0 with
  | none => simp [hs] at h
  | some r =>
    obtain ⟨food, j⟩ := r
    simp only [hs, Option.some.injEq] at h
    subst h
    refine ⟨by simp, by simp, ?_, by simp, by simp, by simp [SNAKE_UPDATE_DELAY]⟩
    intro c hc
    simp only [List.mem_singleton] at hc
    subst hc
    simp [inGrid, grid_width_eq, grid_height_eq]

lemma handleEvent_cases (rnd : Nat → Nat) (fuel : Nat) (g g1 : SnakeGame) (e : Event)
    (h : handleEvent rnd fuel g e = some g1) :
    (g.gameOver = true ∧ e = Event.SDL_KEYDOWN Keycode.SDLK_r ∧ resetGame rnd fuel g = some g1) ∨
      (g1.snake = g.snake ∧ g1.score = g.score ∧ g1.frameCounter = g.frameCounter ∧
        g1.gameOver = g.gameOver ∧ g1.food = g.food ∧ g1.particles = g.particles) := by
  cases e with
  | SDL_QUIT =>
    simp only [handleEvent, Option.some.injEq] at h
    subst h
    simp
  | other =>
    simp only [handleEvent, Option.some.injEq] at h
    subst h
    simp
  | SDL_KEYDOWN sym =>
    cases hg : g.gameOver
    · right
      cases sym <;> simp [handleEvent, hg] at h <;> (try split_ifs at h) <;>
        (try simp only [Option.some.injEq] at h) <;> subst h <;> simp [hg]
    · cases sym
      case SDLK_r =>
        left
        simpa [handleEvent, hg] using h
      all_goals
        right
        simp [handleEvent, hg] at h
        subst h
        simp [hg]

lemma handleEvent_inv (rnd : Nat → Nat) (fuel : Nat) (g g1 : SnakeGame) (e : Event)
    (hinv : Inv g) (h : handleEvent rnd fuel g e = some g1) : Inv g1 := by
  rcases handleEvent_cases rnd fuel g g1 e h with ⟨_, _, hr⟩ | ⟨h1, h2, h3, _, _, _⟩
  · exact resetGame_inv rnd fuel g g1 hr
  · unfold Inv at *
    rw [h1, h2, h3]
    exact hinv

lemma handleInput_inv (rnd : Nat → Nat) (fuel : Nat) (es : List Event) (g g1 : SnakeGame)
    (hinv : Inv g) (h : handleInput rnd fuel es g = some g1) : Inv g1 := by
  induction es generalizing g with
  | nil =>
    simp only [handleInput, Option.some.injEq] at h
    subst h
    exact hinv
  | cons e es ih =>
    simp only [handleInput] at h
    cases he : handleEvent rnd fuel g e with
    | none => simp [he] at h
    | some g2 =>
      simp only [he] at h
      exact ih g2 (handleEvent_inv rnd fuel g g2 e hinv he) h

lemma not_inGrid_iff (p : Point) : ¬ inGrid p ↔ outside p := by
  simp only [inGrid, outside, grid_width_eq, grid_height_eq]
  omega

/-! ### The branches of `update` -/

lemma update_gameOver (rnd : Nat → Nat) (fuel : Nat) (dt : ℚ) (g : SnakeGame)
    (hover : g.gameOver = true) : update rnd fuel dt g = some g := by
  simp [update, hover]

lemma update_wait (rnd : Nat → Nat) (fuel : Nat) (dt : ℚ) (g : SnakeGame)
    (hplay : g.gameOver = false) (hwait : g.frameCounter + 1 < SNAKE_UPDATE_DELAY) :
    update rnd fuel dt g = some { g with frameCounter := g.frameCounter + 1 } := by
  simp [update, hplay, hwait]

lemma update_collide (rnd : Nat → Nat) (fuel : Nat) (dt : ℚ) (g : SnakeGame) (head : Point)
    (tail : List Point) (hplay : g.gameOver = false)
    (hfire : ¬ g.frameCounter + 1 < SNAKE_UPDATE_DELAY) (hs : g.snake = head :: tail)
    (hc : collision g.snake (newHead g.direction head) = true) :
    update rnd fuel dt g =
      some { g with frameCounter := 0, gameOver := true, gameOverStateChanged := true } := by
  rw [hs] at hc
  simp [update, hplay, hfire, hs, hc]

lemma update_move (rnd : Nat → Nat) (fuel : Nat) (dt : ℚ) (g : SnakeGame) (head : Point)
    (tail : List Point) (hplay : g.gameOver = false)
    (hfire : ¬ g.frameCounter + 1 < SNAKE_UPDATE_DELAY) (hs : g.snake = head :: tail)
    (hc : collision g.snake (newHead g.direction head) = false)
    (hne : newHead g.direction head ≠ g.food) :
    update rnd fuel dt g =
      some { g with
        frameCounter := 0
        snake := (newHead g.direction head :: g.snake).dropLast
        particles := updateParticles dt g.particles } := by
  rw [hs] at hc
  simp [update, hplay, hfire, hs, hc, hne]

lemma update_eat (rnd : Nat → Nat) (fuel : Nat) (dt : ℚ) (g : SnakeGame) (head : Point)
    (tail : List Point) (hplay : g.gameOver = false)
    (hfire : ¬ g.frameCounter + 1 < SNAKE_UPDATE_DELAY) (hs : g.snake = head :: tail)
    (hc : collision g.snake (newHead g.direction head) = false)
    (he : newHead g.direction head = g.food) :
    update rnd fuel dt g =
      match spawnFood rnd (newHead g.direction head :: g.snake) fuel 0 with
      | none => none
      | some (food, i) =>
        some { g with
          frameCounter := 0
          snake := newHead g.direction head :: g.snake
          score := g.score + 10
          food := food
          particles := updateParticles dt (addParticles rnd
            (((food.x * GRID_SIZE : Int) : ℚ) + (GRID_SIZE : ℚ) / 2)
            (((food.y * GRID_SIZE : Int) : ℚ) + (GRID_SIZE : ℚ) / 2) 20 i g.particles).1 } := by
  rw [hs, he] at hc
  simp only [update, hplay, hfire, hs, hc, he, if_true, if_false, Bool.false_eq_true]

lemma spawnFood_returns_from (rnd : Nat → Nat) (snake : List Point) (fuel i k : Nat)
    (hk : k < fuel) (hfree : drawnCell rnd (i + k) ∉ snake) :
    ∃ r, spawnFood rnd snake fuel (2 * i) = some r := by
  induction fuel generalizing i k with
  | zero => omega
  | succ n ih =>
    simp only [spawnFood]
    split_ifs with hm
    · cases k with
      | zero => exact absurd hm hfree
      | succ k =>
        have h2 : 2 * i + 2 = 2 * (i + 1) := by ring
        rw [h2]
        apply ih (i + 1) k (by omega)
        have h3 : i + 1 + k = i + (k + 1) := by ring
        rw [h3]
        exact hfree
    · exact ⟨_, rfl⟩

lemma spawnFood_returns (rnd : Nat → Nat) (snake : List Point) (fuel k : Nat)
    (hk : k < fuel) (hfree : drawnCell rnd k ∉ snake) :
    ∃ r, spawnFood rnd snake fuel 0 = some r := by
  have h := spawnFood_returns_from rnd snake fuel 0 k hk (by simpa using hfree)
  simpa using h

lemma update_inv (rnd : Nat → Nat) (fuel : Nat) (dt : ℚ) (g g1 : SnakeGame)
    (hinv : Inv g) (h : update rnd fuel dt g = some g1) : Inv g1 := by
  obtain ⟨hne, hnd, hgrid, hscore, hfc0, hfc1⟩ := hinv
  cases hplay : g.gameOver with
  | true =>
    rw [update_gameOver rnd fuel dt g hplay, Option.some.injEq] at h
    subst h
    exact ⟨hne, hnd, hgrid, hscore, hfc0, hfc1⟩
  | false =>
    by_cases hfire : g.frameCounter + 1 < SNAKE_UPDATE_DELAY
    · rw [update_wait rnd fuel dt g hplay hfire, Option.some.injEq] at h
      subst h
      exact ⟨hne, hnd, hgrid, hscore, by simp only; omega, hfire⟩
    · obtain ⟨head, tail, hs⟩ := List.exists_cons_of_ne_nil hne
      cases hc : collision g.snake (newHead g.direction head) with
      | true =>
        rw [update_collide rnd fuel dt g head tail hplay hfire hs hc, Option.some.injEq] at h
        subst h
        exact ⟨hne, hnd, hgrid, hscore, le_refl 0, zero_lt_delay⟩
      | false =>
        obtain ⟨hin, hfree⟩ := (collision_false_iff _ _).1 hc
        by_cases he : newHead g.direction head = g.food
        · rw [update_eat rnd fuel dt g head tail hplay hfire hs hc he] at h
          cases hsp : spawnFood rnd (newHead g.direction head :: g.snake) fuel 0 with
          | none => simp [hsp] at h
          | some r =>
            obtain ⟨food, j⟩ := r
            simp only [hsp, Option.some.injEq] at h
            subst h
            refine ⟨by simp, List.nodup_cons.2 ⟨hfree, hnd⟩, ?_, ?_, le_refl 0, zero_lt_delay⟩
            · intro c hcm
              rcases List.mem_cons.1 hcm with hc1 | hc1
              · rw [hc1]
                exact hin
              · exact hgrid c hc1
            · simp only [List.length_cons, Nat.cast_add, Nat.cast_one]
              rw [hscore]
              ring
        · rw [update_move rnd fuel dt g head tail hplay hfire hs hc he, Option.some.injEq] at h
          subst h
          have hsub : (newHead g.direction head :: g.snake).dropLast.Sublist
              (newHead g.direction head :: g.snake) := List.dropLast_sublist _
          refine ⟨?_, (List.nodup_cons.2 ⟨hfree, hnd⟩).sublist hsub, ?_, ?_, le_refl 0,
            zero_lt_delay⟩
          · simp [hs]
          · intro c hcm
            rcases List.mem_cons.1 (hsub.subset hcm) with hc1 | hc1
            · rw [hc1]
              exact hin
            · exact hgrid c hc1
          · simp only [List.length_dropLast, List.length_cons, Nat.add_sub_cancel]
            exact hscore

lemma reachable_inv (g : SnakeGame) (h : Reachable g) : Inv g := by
  induction h with
  | reset rnd fuel g0 g hr => exact resetGame_inv rnd fuel g0 g hr
  | input rnd fuel es g g1 _ hi ih => exact handleInput_inv rnd fuel es g g1 ih hi
  | update rnd fuel dt g g1 _ hu ih => exact update_inv rnd fuel dt g g1 ih hu

/-- The cells of the grid, as a finite set. -/
def gridCells : Finset Point :=
  ((Finset.Icc (0 : Int) 19) ×ˢ (Finset.Icc (0 : Int) 14)).image (fun q => Point.mk q.1 q.2)

lemma gridCells_card_le : gridCells.card ≤ 300 := by
  unfold gridCells
  refine le_trans Finset.card_image_le ?_
  simp

lemma mem_gridCells_of_inGrid (p : Point) (h : inGrid p) : p ∈ gridCells := by
  obtain ⟨h1, h2, h3, h4⟩ := h
  rw [grid_width_eq] at h2
  rw [grid_height_eq] at h4
  unfold gridCells
  refine Finset.mem_image.2 ⟨(p.x, p.y), ?_, rfl⟩
  simp only [Finset.mem_product, Finset.mem_Icc]
  omega

/-- In a reachable state the snake has at most 300 cells and the score lies
between 0 and 2990, so the `int` arithmetic of `update` stays in range. -/
lemma reachable_bounds (g : SnakeGame) (h : Reachable g) :
    g.snake.length ≤ 300 ∧ 0 ≤ g.score ∧ g.score ≤ 2990 := by
  obtain ⟨hne, hnd, hgrid, hscore, _, _⟩ := reachable_inv g h
  have hlen : g.snake.length ≤ 300 := by
    rw [← List.toFinset_card_of_nodup hnd]
    refine le_trans (Finset.card_le_card ?_) gridCells_card_le
    intro c hc
    exact mem_gridCells_of_inGrid c (hgrid c (List.mem_toFinset.1 hc))
  have hpos : 1 ≤ g.snake.length := List.length_pos.2 hne
  refine ⟨hlen, ?_, ?_⟩ <;> rw [hscore] <;> omega

/-! ### Results of `update` -/

lemma update_gameOver_newHead (rnd : Nat → Nat) (fuel : Nat) (dt : ℚ) (g : SnakeGame)
    (head : Point) (tail : List Point) (hplay : g.gameOver = false)
    (hfire : SNAKE_UPDATE_DELAY ≤ g.frameCounter + 1) (hs : g.snake = head :: tail) :
    (∀ g1, update rnd fuel dt g = some g1 →
      (g1.gameOver = true ↔
          (outside (newHead g.direction head) ∨ newHead g.direction head ∈ g.snake)) ∧
        (g1.gameOver = true →
          g1.snake = g.snake ∧ g1.food = g.food ∧ g1.score = g.score ∧
            g1.direction = g.direction)) ∧
      ((outside (newHead g.direction head) ∨ newHead g.direction head ∈ g.snake ∨
          newHead g.direction head ≠ g.food ∨
          ∃ k, k < fuel ∧ drawnCell rnd k ∉ newHead g.direction head :: g.snake) →
        ∃ g1, update rnd fuel dt g = some g1) := by
  have hfire1 : ¬ g.frameCounter + 1 < SNAKE_UPDATE_DELAY := not_lt.2 hfire
  cases hc : collision g.snake (newHead g.direction head) with
  | true =>
    have hcoll : outside (newHead g.direction head) ∨ newHead g.direction head ∈ g.snake := by
      by_contra hcon
      rw [not_or, ← not_inGrid_iff, not_not] at hcon
      rw [(collision_false_iff _ _).2 hcon] at hc
      exact Bool.noConfusion hc
    rw [update_collide rnd fuel dt g head tail hplay hfire1 hs hc]
    refine ⟨?_, fun _ => ⟨_, rfl⟩⟩
    intro g1 h
    simp only [Option.some.injEq] at h
    subst h
    simp [hcoll]
  | false =>
    obtain ⟨hin, hfree⟩ := (collision_false_iff _ _).1 hc
    have hnot : ¬ (outside (newHead g.direction head) ∨ newHead g.direction head ∈ g.snake) := by
      rw [not_or, ← not_inGrid_iff, not_not]
      exact ⟨hin, hfree⟩
    by_cases he : newHead g.direction head = g.food
    · rw [update_eat rnd fuel dt g head tail hplay hfire1 hs hc he]
      constructor
      · intro g1 h
        cases hsp : spawnFood rnd (newHead g.direction head :: g.snake) fuel 0 with
        | none => simp [hsp] at h
        | some r =>
          simp only [hsp, Option.some.injEq] at h
          subst h
          simp [hnot, hplay]
      · rintro (ho | hm | hne | ⟨k, hk, hk1⟩)
        · exact absurd (Or.inl ho) hnot
        · exact absurd hm hfree
        · exact absurd he hne
        · obtain ⟨r, hr⟩ := spawnFood_returns rnd _ fuel k hk hk1
          rw [hr]
          exact ⟨_, rfl⟩
    · rw [update_move rnd fuel dt g head tail hplay hfire1 hs hc he]
      refine ⟨?_, fun _ => ⟨_, rfl⟩⟩
      intro g1 h
      simp only [Option.some.injEq] at h
      subst h
      simp [hnot, hplay]

lemma update_score_of_some (rnd : Nat → Nat) (fuel : Nat) (dt : ℚ) (g g1 : SnakeGame)
    (h : update rnd fuel dt g = some g1) :
    g1.score = if eats g = true then g.score + 10 else g.score := by
  cases hplay : g.gameOver with
  | true =>
    rw [update_gameOver rnd fuel dt g hplay, Option.some.injEq] at h
    subst h
    simp [eats, hplay]
  | false =>
    by_cases hfire : g.frameCounter + 1 < SNAKE_UPDATE_DELAY
    · rw [update_wait rnd fuel dt g hplay hfire, Option.some.injEq] at h
      subst h
      simp [eats, hplay, not_le.2 hfire]
    · cases hs : g.snake with
      | nil => simp [update, hplay, hfire, hs] at h
      | cons head tail =>
        cases hc : collision g.snake (newHead g.direction head) with
        | true =>
          rw [update_collide rnd fuel dt g head tail hplay hfire hs hc,
            Option.some.injEq] at h
          subst h
          rw [hs] at hc
          simp [eats, hplay, hs, hc]
        | false =>
          by_cases he : newHead g.direction head = g.food
          · rw [update_eat rnd fuel dt g head tail hplay hfire hs hc he] at h
            cases hsp : spawnFood rnd (newHead g.direction head :: g.snake) fuel 0 with
            | none => simp [hsp] at h
            | some r =>
              simp only [hsp, Option.some.injEq] at h
              subst h
              rw [hs, he] at hc
              simp [eats, hplay, hs, hc, he, not_lt.1 hfire]
          · rw [update_move rnd fuel dt g head tail hplay hfire hs hc he,
              Option.some.injEq] at h
            subst h
            simp [eats, hplay, hs, he]

lemma reachable_score_multiple (g : SnakeGame) (hg : Reachable g) :
    ∃ k : Nat, g.score = 10 * (k : Int) := by
  obtain ⟨hne, _, _, hscore, _, _⟩ := reachable_inv g hg
  obtain ⟨head, tail, hs⟩ := List.exists_cons_of_ne_nil hne
  refine ⟨tail.length, ?_⟩
  rw [hscore, hs]
  simp

lemma update_returns (rnd : Nat → Nat) (fuel : Nat) (dt : ℚ) (g : SnakeGame)
    (hne : g.snake ≠ [])
    (hfree : eats g = false ∨ ∃ k, k < fuel ∧ drawnCell rnd k ∉ g.food :: g.snake) :
    ∃ g1, update rnd fuel dt g = some g1 := by
  obtain ⟨head, tail, hs⟩ := List.exists_cons_of_ne_nil hne
  cases hplay : g.gameOver with
  | true => exact ⟨_, update_gameOver rnd fuel dt g hplay⟩
  | false =>
    by_cases hfire : g.frameCounter + 1 < SNAKE_UPDATE_DELAY
    · exact ⟨_, update_wait rnd fuel dt g hplay hfire⟩
    · cases hc : collision g.snake (newHead g.direction head) with
      | true => exact ⟨_, update_collide rnd fuel dt g head tail hplay hfire hs hc⟩
      | false =>
        by_cases he : newHead g.direction head = g.food
        · rw [update_eat rnd fuel dt g head tail hplay hfire hs hc he]
          rcases hfree with hnot | ⟨k, hk, hk1⟩
          · rw [hs, he] at hc
            simp [eats, hplay, hs, hc, he, not_lt.1 hfire] at hnot
          · rw [← he] at hk1
            obtain ⟨r, hr⟩ := spawnFood_returns rnd _ fuel k hk hk1
            rw [hr]
            exact ⟨_, rfl⟩
        · exact ⟨_, update_move rnd fuel dt g head tail hplay hfire hs hc he⟩

/-! ### Reachable sample sessions -/

lemma reachable_wait (g : SnakeGame) (n : Nat) (hg : Reachable g) (hplay : g.gameOver = false)
    (hn : g.frameCounter + (n : Int) < SNAKE_UPDATE_DELAY) :
    Reachable { g with frameCounter := g.frameCounter + (n : Int) } := by
  induction n with
  | zero =>
    rcases g with ⟨running, gameOver, direction, snake, food, fc, score, ps, st, gt, ls, gc⟩
    simpa using hg
  | succ n ih =>
    have hn1 : g.frameCounter + (n : Int) < SNAKE_UPDATE_DELAY := by
      push_cast at hn
      omega
    have hstep := update_wait rnd3 1 0 { g with frameCounter := g.frameCounter + (n : Int) }
      hplay (by push_cast at hn; simpa [add_assoc] using hn)
    refine Reachable.update rnd3 1 0 _ _ (ih hn1) ?_
    rw [hstep]
    simp [add_assoc]

lemma reachable_sample : Reachable sample := by
  have h0 : Reachable { sample with frameCounter := 0 } :=
    Reachable.reset rnd117 1 sample _ (by decide)
  exact reachable_wait { sample with frameCounter := 0 } 14 h0 rfl (by decide)

lemma update_sample : update rnd3 1 (1 / 60) sample = some sampleAte := by
  simp [update, sample, sampleAte, rnd3, spawnFood, addParticles, updateParticles, stepParticle,
    newHead, collision, grid_width_eq, grid_height_eq, GRID_SIZE, MAX_PARTICLES,
    SNAKE_UPDATE_DELAY]
  norm_num

lemma reachable_sampleAte : Reachable sampleAte :=
  Reachable.update rnd3 1 (1 / 60) sample sampleAte reachable_sample update_sample

lemma reachable_sampleTurned : Reachable sampleTurned :=
  Reachable.input rnd3 1 [Event.SDL_KEYDOWN Keycode.SDLK_UP] sampleAte sampleTurned
    reachable_sampleAte rfl

/-! ## The claims -/

/-- C1: in every state reachable from `resetGame` by `handleInput` calls (any
events) and `update` calls (any `deltaTime`, any random values), the snake
contains no two equal cells. -/
theorem snake_nodup_of_reachable (g : SnakeGame) (h : Reachable g) : g.snake.Nodup :=
  (reachable_inv g h).2.1

/-- Witness for C1: the session reached by `resetGame`, fourteen waiting
`update` calls, the `update` call that eats the food at (11,7), and a
`handleInput` call with an Up key; its snake has the two cells (11,7), (10,7). -/
theorem snake_nodup_of_reachable_witness :
    Reachable sampleTurned ∧ sampleTurned.snake = [⟨11, 7⟩, ⟨10, 7⟩] ∧
      sampleTurned.direction = Direction.UP ∧ sampleTurned.snake.Nodup :=
  ⟨reachable_sampleTurned, rfl, rfl,
    snake_nodup_of_reachable sampleTurned reachable_sampleTurned⟩

/-- C3: when the snake sub-step of `update` fires on a playing session, the
session is game over afterwards if and only if the candidate head `c`, which is
the head moved by one cell in the current direction (up: row - 1, down: row + 1,
left: column - 1, right: column + 1), is outside the 20x15 grid or is a cell of
the snake, and then snake, food, score and direction are as before the call.
The call returns in the collision case, when the candidate head is not the food
cell, and when one of the first `fuel` cells drawn by `spawnFood` is free. -/
theorem update_gameOver_iff (rnd : Nat → Nat) (fuel : Nat) (dt : ℚ) (g : SnakeGame)
    (head : Point) (tail : List Point) (c : Point) (hplay : g.gameOver = false)
    (hfire : SNAKE_UPDATE_DELAY ≤ g.frameCounter + 1) (hs : g.snake = head :: tail)
    (hcand : c =
      match g.direction with
      | Direction.UP => ⟨head.x, head.y - 1⟩
      | Direction.DOWN => ⟨head.x, head.y + 1⟩
      | Direction.LEFT => ⟨head.x - 1, head.y⟩
      | Direction.RIGHT => ⟨head.x + 1, head.y⟩) :
    (∀ g1, update rnd fuel dt g = some g1 →
      (g1.gameOver = true ↔ (outside c ∨ c ∈ g.snake)) ∧
        (g1.gameOver = true →
          g1.snake = g.snake ∧ g1.food = g.food ∧ g1.score = g.score ∧
            g1.direction = g.direction)) ∧
      ((outside c ∨ c ∈ g.snake ∨ c ≠ g.food ∨
          ∃ k, k < fuel ∧ drawnCell rnd k ∉ c :: g.snake) →
        ∃ g1, update rnd fuel dt g = some g1) := by
  have hc : c = newHead g.direction head := by
    rw [hcand]
    cases g.direction <;> rfl
  rw [hc]
  exact update_gameOver_newHead rnd fuel dt g head tail hplay hfire hs

/-- Witness for C3: heading right from (19,3) the candidate (20,3) is outside
the grid and the game is over; heading left from (10,7) the candidate (9,7) is
the second cell of the snake and the game is over; heading right from (10,7)
the candidate (11,7) is free and the game goes on. -/
theorem update_gameOver_iff_witness :
    (outside ⟨20, 3⟩ ∧
        ∃ g1, update rnd3 1 0 sampleWall = some g1 ∧ g1.gameOver = true ∧
          g1.snake = [⟨19, 3⟩] ∧ g1.food = ⟨11, 7⟩ ∧ g1.score = 0 ∧
          g1.direction = Direction.RIGHT) ∧
      ((⟨9, 7⟩ : Point) ∈ sampleBack.snake ∧
        ∃ g1, update rnd3 1 0 sampleBack = some g1 ∧ g1.gameOver = true ∧
          g1.snake = [⟨10, 7⟩, ⟨9, 7⟩] ∧ g1.food = ⟨11, 7⟩ ∧ g1.score = 10 ∧
          g1.direction = Direction.LEFT) ∧
      (¬ outside ⟨11, 7⟩ ∧ (⟨11, 7⟩ : Point) ∉ sample.snake ∧
        ∃ g1, update rnd3 1 0 sample = some g1 ∧ g1.gameOver = false) := by
  have H1 := update_gameOver_iff rnd3 1 0 sampleWall ⟨19, 3⟩ [] ⟨20, 3⟩ rfl (by decide) rfl rfl
  have H2 := update_gameOver_iff rnd3 1 0 sampleBack ⟨10, 7⟩ [⟨9, 7⟩] ⟨9, 7⟩ rfl (by decide)
    rfl rfl
  have H3 := update_gameOver_iff rnd3 1 0 sample ⟨10, 7⟩ [] ⟨11, 7⟩ rfl (by decide) rfl rfl
  refine ⟨⟨by decide, ?_⟩, ⟨by decide, ?_⟩, ⟨by decide, by decide, ?_⟩⟩
  · obtain ⟨g1, hg1⟩ := H1.2 (Or.inl (by decide))
    have hover : g1.gameOver = true := ((H1.1 g1 hg1).1).2 (Or.inl (by decide))
    exact ⟨g1, hg1, hover, (H1.1 g1 hg1).2 hover⟩
  · obtain ⟨g1, hg1⟩ := H2.2 (Or.inr (Or.inl (by decide)))
    have hover : g1.gameOver = true := ((H2.1 g1 hg1).1).2 (Or.inr (by decide))
    exact ⟨g1, hg1, hover, (H2.1 g1 hg1).2 hover⟩
  · obtain ⟨g1, hg1⟩ := H3.2 (Or.inr (Or.inr (Or.inr ⟨0, by decide, by decide⟩)))
    refine ⟨g1, hg1, Bool.eq_false_iff.2 (fun hover => ?_)⟩
    have hcoll := ((H3.1 g1 hg1).1).1 hover
    revert hcoll
    decide

/-- C4: an `update` call adds exactly 10 to the score when the snake moves onto
the food cell in that call and leaves the score as it was in every other case
(game over, frame counter below the threshold, collision, move onto another
cell); hence the score of every reachable state is a non-negative multiple of
10.  On a non-empty snake the call returns such a state whenever it does not
eat, and also when it eats and one of the first `fuel` cells drawn by
`spawnFood` is off the grown snake. -/
theorem update_score :
    (∀ (rnd : Nat → Nat) (fuel : Nat) (dt : ℚ) (g g1 : SnakeGame),
      update rnd fuel dt g = some g1 →
        g1.score = if eats g = true then g.score + 10 else g.score) ∧
      (∀ g : SnakeGame, Reachable g → ∃ k : Nat, g.score = 10 * (k : Int)) ∧
      (∀ (rnd : Nat → Nat) (fuel : Nat) (dt : ℚ) (g : SnakeGame), g.snake ≠ [] →
        (eats g = false ∨ ∃ k, k < fuel ∧ drawnCell rnd k ∉ g.food :: g.snake) →
        ∃ g1, update rnd fuel dt g = some g1 ∧
          g1.score = if eats g = true then g.score + 10 else g.score) := by
  refine ⟨update_score_of_some, reachable_score_multiple, ?_⟩
  intro rnd fuel dt g hne hfree
  obtain ⟨g1, hg1⟩ := update_returns rnd fuel dt g hne hfree
  exact ⟨g1, hg1, update_score_of_some rnd fuel dt g g1 hg1⟩

/-- Witness for C4: eating on `sample` takes the score from 0 to 10 and eating
on `sampleTwo` from 10 to 20; the waiting call on `sampleAte`, the collision on
`sampleBack` and the call on the finished `sampleOver` keep 10, 10 and 20; the
reachable `sampleAte` has the score 10 * 1. -/
theorem update_score_witness :
    (∃ g1, update rnd3 1 (1 / 60) sample = some g1 ∧ g1.score = 10) ∧
      (∃ g1, update rnd3 1 (1 / 60) sampleTwo = some g1 ∧ g1.score = 20) ∧
      (∃ g1, update rnd3 1 (1 / 60) sampleAte = some g1 ∧ g1.score = 10) ∧
      (∃ g1, update rnd3 1 (1 / 60) sampleBack = some g1 ∧ g1.score = 10) ∧
      (∃ g1, update rnd3 1 (1 / 60) sampleOver = some g1 ∧ g1.score = 20) ∧
      ∃ k : Nat, sampleAte.score = 10 * (k : Int) := by
  refine ⟨?_, ?_, ?_, ?_, ?_, update_score.2.1 sampleAte reachable_sampleAte⟩
  · obtain ⟨g1, hg1, hsc⟩ := update_score.2.2 rnd3 1 (1 / 60) sample (by decide)
      (Or.inr ⟨0, by decide, by decide⟩)
    exact ⟨g1, hg1, hsc.trans (by decide)⟩
  · obtain ⟨g1, hg1, hsc⟩ := update_score.2.2 rnd3 1 (1 / 60) sampleTwo (by decide)
      (Or.inr ⟨0, by decide, by decide⟩)
    exact ⟨g1, hg1, hsc.trans (by decide)⟩
  · obtain ⟨g1, hg1, hsc⟩ := update_score.2.2 rnd3 1 (1 / 60) sampleAte (by decide)
      (Or.inl (by decide))
    exact ⟨g1, hg1, hsc.trans (by decide)⟩
  · obtain ⟨g1, hg1, hsc⟩ := update_score.2.2 rnd3 1 (1 / 60) sampleBack (by decide)
      (Or.inl (by decide))
    exact ⟨g1, hg1, hsc.trans (by decide)⟩
  · obtain ⟨g1, hg1, hsc⟩ := update_score.2.2 rnd3 1 (1 / 60) sampleOver (by decide)
      (Or.inl (by decide))
    exact ⟨g1, hg1, hsc.trans (by decide)⟩

/-- C5: after an `update` call in which the snake eats the food and `spawnFood`
returns, the new food cell is not a cell of the snake as it is after the call,
which is the candidate head followed by the old snake. -/
theorem update_food_not_on_snake (rnd : Nat → Nat) (fuel : Nat) (dt : ℚ) (g g1 : SnakeGame)
    (heat : eats g = true) (h : update rnd fuel dt g = some g1) :
    g1.food ∉ g1.snake ∧ g1.snake = g.food :: g.snake ∧
      ∃ i, spawnFood rnd (g.food :: g.snake) fuel 0 = some (g1.food, i) := by
  cases hs : g.snake with
  | nil => simp [eats, hs] at heat
  | cons head tail =>
    simp only [eats, hs, Bool.and_eq_true, Bool.not_eq_true', decide_eq_true_eq] at heat
    obtain ⟨⟨hplay, hfire⟩, hc, he⟩ := heat
    rw [← hs] at hc
    rw [update_eat rnd fuel dt g head tail hplay (not_lt.2 hfire) hs hc he] at h
    cases hsp : spawnFood rnd (newHead g.direction head :: g.snake) fuel 0 with
    | none => simp [hsp] at h
    | some r =>
      obtain ⟨food, i⟩ := r
      simp only [hsp, Option.some.injEq] at h
      subst h
      rw [he, hs] at hsp
      refine ⟨?_, ?_, i, hsp⟩
      · simp only [he, hs]
        exact spawnFood_not_mem rnd _ fuel 0 food i hsp
      · simp only [he, hs]

/-- Witness for C5: after eating on the sample the food is off the two-cell snake. -/
theorem update_food_not_on_snake_witness :
    ∃ g1, update rnd3 1 0 sample = some g1 ∧ g1.food ∉ g1.snake ∧
      g1.snake = [⟨11, 7⟩, ⟨10, 7⟩] := by
  obtain ⟨g1, hg1⟩ : ∃ g1, update rnd3 1 0 sample = some g1 := ⟨_, rfl⟩
  have H := update_food_not_on_snake rnd3 1 0 sample g1 (by decide) hg1
  exact ⟨g1, hg1, H.1, H.2.1⟩

/-- C6: `handleInput` tests every key event against the direction left by the
previous event of the same call, so two events reverse the snake: with the
direction Right, key-down Up then key-down Left in one call leave the
direction Left, the opposite of Right; the next snake move of the two-cell
snake then runs into its own second cell and ends the game. -/
theorem handleInput_two_events_reverse :
    sampleTwo.gameOver = false ∧ sampleTwo.direction = Direction.RIGHT ∧
      handleInput rnd3 1
          [Event.SDL_KEYDOWN Keycode.SDLK_UP, Event.SDL_KEYDOWN Keycode.SDLK_LEFT] sampleTwo =
        some { sampleTwo with direction := Direction.LEFT } ∧
      Direction.LEFT = opposite sampleTwo.direction ∧
      update rnd3 1 (1 / 60) { sampleTwo with direction := Direction.LEFT } =
        some { sampleTwo with
          direction := Direction.LEFT
          frameCounter := 0
          gameOver := true
          gameOverStateChanged := true } := by
  decide

/-- C7: a single arrow key-down event for the direction `r` on a playing
session with direction `d` is rejected (the guard fails, the direction stays
`d` and is not `r`) if and only if `r` is the opposite of `d`; otherwise the
direction becomes `r`.  Nothing else of the session changes. -/
theorem handleEvent_arrow (rnd : Nat → Nat) (fuel : Nat) (g : SnakeGame) (r : Direction)
    (hplay : g.gameOver = false) :
    (rejected g.direction r = true ↔ r = opposite g.direction) ∧
      handleEvent rnd fuel g (Event.SDL_KEYDOWN (arrowKey r)) =
        some { g with direction := if r = opposite g.direction then g.direction else r } ∧
      ((if r = opposite g.direction then g.direction else r) ≠ r ↔ r = opposite g.direction) := by
  rcases g with ⟨running, gameOver, direction, snake, food, fc, score, ps, st, gt, ls, gc⟩
  simp only at hplay
  subst hplay
  cases direction <;> cases r <;> simp [rejected, handleEvent, arrowKey, opposite]

/-- Witness for C7: a Left request while heading Right leaves the session as it was. -/
theorem handleEvent_arrow_witness :
    handleEvent rnd3 1 sample (Event.SDL_KEYDOWN Keycode.SDLK_LEFT) = some sample ∧
      sample.direction = Direction.RIGHT :=
  ⟨(handleEvent_arrow rnd3 1 sample Direction.LEFT rfl).2.1, rfl⟩

/-- C8: an R key-down event on a session that is over yields, when `spawnFood`
returns, the snake `[(10,7)]`, score 0, no particles, direction Right and
`gameOver` false, with the food off the cell (10,7); `spawnFood` returns when
one of its first `fuel` cells is not (10,7).  On a session that is not over the
event leaves the whole state unchanged. -/
theorem handleEvent_restart (rnd : Nat → Nat) (fuel : Nat) (g : SnakeGame) :
    (g.gameOver = true →
      (∀ g1, handleEvent rnd fuel g (Event.SDL_KEYDOWN Keycode.SDLK_r) = some g1 →
        g1.snake = [⟨10, 7⟩] ∧ g1.score = 0 ∧ g1.particles = [] ∧
          g1.direction = Direction.RIGHT ∧ g1.gameOver = false ∧ g1.food ≠ ⟨10, 7⟩) ∧
      ((∃ k, k < fuel ∧ drawnCell rnd k ≠ ⟨10, 7⟩) →
        ∃ g1, handleEvent rnd fuel g (Event.SDL_KEYDOWN Keycode.SDLK_r) = some g1)) ∧
      (g.gameOver = false →
        handleEvent rnd fuel g (Event.SDL_KEYDOWN Keycode.SDLK_r) = some g) := by
  have hcentre : ([⟨GRID_WIDTH / 2, GRID_HEIGHT / 2⟩] : List Point) = [⟨10, 7⟩] := by decide
  constructor
  · intro hover
    have hev : handleEvent rnd fuel g (Event.SDL_KEYDOWN Keycode.SDLK_r) = resetGame rnd fuel g := by
      simp [handleEvent, hover]
    rw [hev]
    unfold resetGame
    rw [hcentre]
    dsimp only
    constructor
    · intro g1 h
      cases hsp : spawnFood rnd [⟨10, 7⟩] fuel 0 with
      | none => simp [hsp] at h
      | some res =>
        obtain ⟨food, i⟩ := res
        have hfood := spawnFood_not_mem rnd _ fuel 0 food i hsp
        simp only [hsp, Option.some.injEq] at h
        subst h
        simpa using hfood
    · rintro ⟨k, hk, hk1⟩
      obtain ⟨res, hres⟩ := spawnFood_returns rnd [⟨10, 7⟩] fuel k hk (by simpa using hk1)
      rw [hres]
      exact ⟨_, rfl⟩
  · intro hplay
    simp [handleEvent, hplay]

/-- Witness for C8: R on a session that is over, and R on a playing session. -/
theorem handleEvent_restart_witness :
    (∃ g1, handleEvent rnd3 1 sampleOver (Event.SDL_KEYDOWN Keycode.SDLK_r) = some g1 ∧
        g1.snake = [⟨10, 7⟩] ∧ g1.score = 0 ∧ g1.particles = [] ∧
        g1.direction = Direction.RIGHT ∧ g1.gameOver = false ∧ g1.food ≠ ⟨10, 7⟩) ∧
      handleEvent rnd3 1 sampleTwo (Event.SDL_KEYDOWN Keycode.SDLK_r) = some sampleTwo := by
  have H := handleEvent_restart rnd3 1 sampleOver
  obtain ⟨g1, hg1⟩ := (H.1 rfl).2 ⟨0, by decide, by decide⟩
  exact ⟨⟨g1, hg1, (H.1 rfl).1 g1 hg1⟩, (handleEvent_restart rnd3 1 sampleTwo).2 rfl⟩

/-- C9: `update` returns before its particle loop when the frame counter is
below the threshold.  On the reachable session `sampleAte` (playing, frame
counter 0, the 20 particles of the burst at x = y = 1353/10 with velocity -282
px/s and age 1/60), `update(1/60)` only counts the frame: the particles are as
before, where the particle step gives x = y = 653/5 and age 1/30. -/
theorem update_wait_skips_particles :
    Reachable sampleAte ∧ sampleAte.gameOver = false ∧
      update rnd3 1 (1 / 60) sampleAte = some { sampleAte with frameCounter := 1 } ∧
      sampleAte.particles =
        List.replicate 20 ⟨true, 1353 / 10, 1353 / 10, -282, -282, 1, 1 / 60⟩ ∧
      updateParticles (1 / 60) sampleAte.particles =
        List.replicate 20 ⟨true, 653 / 5, 653 / 5, -282, -282, 1, 1 / 30⟩ := by
  refine ⟨reachable_sampleAte, rfl, rfl, rfl, ?_⟩
  simp [updateParticles, stepParticle, sampleAte, sample]
  norm_num

/-- C10: `update` calls `spawnFood` before `addParticles`, so the burst is
created at the centre of the new food cell: the snake at (10,7) eats the food
at (11,7), the food moves to (3,3), and each of the 20 particles, traced back
by its one step of 1/60 s, starts at (3*40+20, 3*40+20) = (140,140) and not at
(11*40+20, 7*40+20) = (460,300). -/
theorem update_burst_at_new_food :
    ∃ g1, update rnd3 1 (1 / 60) sample = some g1 ∧ sample.food = ⟨11, 7⟩ ∧
      g1.snake = [⟨11, 7⟩, ⟨10, 7⟩] ∧ g1.food = ⟨3, 3⟩ ∧ g1.particles.length = 20 ∧
      ∀ p ∈ g1.particles, p.age = 1 / 60 ∧
        p.x - p.vx * (1 / 60) = 140 ∧ p.y - p.vy * (1 / 60) = 140 ∧
        p.x - p.vx * (1 / 60) ≠ 460 ∧ p.y - p.vy * (1 / 60) ≠ 300 := by
  refine ⟨_, rfl, rfl, ?_⟩
  simp [sample, rnd3, spawnFood, addParticles, updateParticles, stepParticle, newHead,
    grid_width_eq, grid_height_eq, GRID_SIZE, MAX_PARTICLES]
  norm_num

end Snake
